import Mathlib

/-!
Verification of the Kepsten voice front-desk conversation core (src/app.py).

The Python module is shallowly embedded: the per-turn webhook handler
`gather` (app.py lines 516-684), the keyword intent classifier
`detect_simple_intent` (498-513), the knowledge-base query
`search_knowledge_base` (281-288), the booking writer `save_request_to_db`
(242-261), the interaction logger `record_interaction` (272-278), the
availability-slot upsert (662-666) and the `confirm_time` endpoint
(688-701).  Database writes are modelled as an explicit effect list;
fallible collaborators (sqlite calls) are modelled with failure flags in
an environment record, and the handler runs in `Except Unit` because the
Python code does not catch exceptions around those calls.
-/

/-- ASCII lowercase letter test, mirroring the regex class `[a-z]`. -/
def isLowerAZ (c : Char) : Bool := 'a' ≤ c && c ≤ 'z'

/-- ASCII uppercase letter test, mirroring the regex class `[A-Z]`. -/
def isUpperAZ (c : Char) : Bool := 'A' ≤ c && c ≤ 'Z'

/-- ASCII letter test, mirroring the regex class `[A-Za-z]`. -/
def isAlphaAZ (c : Char) : Bool := isLowerAZ c || isUpperAZ c

/-- ASCII digit test, mirroring the regex class `[0-9]`. -/
def isDigit09 (c : Char) : Bool := '0' ≤ c && c ≤ '9'

/-- ASCII word character, mirroring the regex class `\w` used by `\b`. -/
def isWordChar (c : Char) : Bool := isAlphaAZ c || isDigit09 c || c = '_'

/-- ASCII lowercasing of one character, mirroring Python `str.lower`
on the ASCII inputs the dialogs use. -/
def charLower (c : Char) : Char :=
  if isUpperAZ c then Char.ofNat (c.toNat + 32) else c

/-- Lowercase a character list. -/
def lowerL (l : List Char) : List Char := l.map charLower

/-- Lowercase a string (Python `str.lower` restricted to ASCII). -/
def lowerS (s : String) : String := String.mk (lowerL s.data)

/-- Whitespace stripped by Python `str.strip` (ASCII subset). -/
def isSpaceB (c : Char) : Bool :=
  c = ' ' || c = '\t' || c = '\n' || c = '\x0d' || c = '\x0b' || c = '\x0c'

/-- Strip leading and trailing whitespace from a character list. -/
def stripL (l : List Char) : List Char :=
  ((l.dropWhile isSpaceB).reverse.dropWhile isSpaceB).reverse

/-- Python `str.strip`. -/
def strip (s : String) : String := String.mk (stripL s.data)

/-- Does `needle` occur at the head of `hay`? -/
def startsWithL : List Char → List Char → Bool
  | [], _ => true
  | _ :: _, [] => false
  | a :: as, b :: bs => a = b && startsWithL as bs

/-- Does `needle` occur anywhere inside `hay`?  (Python `needle in hay`.) -/
def hasInfixL : List Char → List Char → Bool
  | [], needle => startsWithL needle []
  | c :: rest, needle => startsWithL needle (c :: rest) || hasInfixL rest needle

/-- Python substring containment `needle in hay` on strings. -/
def containsStr (hay needle : String) : Bool := hasInfixL hay.data needle.data

/-- Length of the maximal run of characters satisfying `p` at the head. -/
def countRun (p : Char → Bool) : List Char → Nat
  | [] => 0
  | c :: rest => if p c then countRun p rest + 1 else 0

/-- Characters allowed in the local part of `EMAIL_REGEX`
(`[A-Za-z0-9._%+-]`, app.py line 498). -/
def isLocalChar (c : Char) : Bool :=
  isAlphaAZ c || isDigit09 c || c = '.' || c = '_' || c = '%' || c = '+' || c = '-'

/-- Characters allowed in the domain part of `EMAIL_REGEX` (`[A-Za-z0-9.-]`). -/
def isDomChar (c : Char) : Bool :=
  isAlphaAZ c || isDigit09 c || c = '.' || c = '-'

/-- Backtracking step of the regex engine for `D+\.[A-Za-z]\x7b2,\x7d`:
the largest position `j ≤ bound` in `rest` holding a dot followed by two
ASCII letters.  Greedy `D+` tries long prefixes first, so the largest
such `j` is the one `re` picks. -/
def bestDotPos (rest : List Char) : Nat → Option Nat
  | 0 => none
  | Nat.succ k =>
      if rest.getD (Nat.succ k) ' ' = '.' && isAlphaAZ (rest.getD (k + 2) ' ')
          && isAlphaAZ (rest.getD (k + 3) ' ')
      then some (Nat.succ k) else bestDotPos rest k

/-- Try to match `EMAIL_REGEX` starting exactly at the head of `l`,
returning the matched characters (the value of `m.group(0)`). -/
def matchEmailAt (l : List Char) : Option (List Char) :=
  let r := countRun isLocalChar l
  if r = 0 then none
  else
    match l.drop r with
    | '@' :: rest =>
        let d := countRun isDomChar rest
        match bestDotPos rest d with
        | some j =>
            let aLen := countRun isAlphaAZ (rest.drop (j + 1))
            some (l.take (r + 1 + j + 1 + aLen))
        | none => none
    | _ => none

/-- `re.search(EMAIL_REGEX, ·)`: leftmost match of the email pattern. -/
def findEmail : List Char → Option (List Char)
  | [] => none
  | c :: rest =>
      match matchEmailAt (c :: rest) with
      | some m => some m
      | none => findEmail rest

/-- Existence of an email-pattern match (used by `detect_simple_intent`). -/
def emailSearch (s : String) : Bool := (findEmail s.data).isSome

/-- Try to match the date pattern `(20\d\x7b2\x7d-\d\x7b2\x7d-\d\x7b2\x7d)`
(app.py line 635) at the head of the list. -/
def matchISOAt : List Char → Option (List Char)
  | '2' :: '0' :: a :: b :: '-' :: c :: d :: '-' :: e :: f :: _ =>
      if isDigit09 a && isDigit09 b && isDigit09 c && isDigit09 d
          && isDigit09 e && isDigit09 f
      then some ['2', '0', a, b, '-', c, d, '-', e, f] else none
  | _ => none

/-- `re.search` for the ISO-date pattern: leftmost occurrence. -/
def findISO : List Char → Option (List Char)
  | [] => none
  | c :: rest =>
      match matchISOAt (c :: rest) with
      | some m => some m
      | none => findISO rest

/-- Numeric value of a character in `'1'..'5'`, else none. -/
def digitVal (c : Char) : Option Nat :=
  if '1' ≤ c && c ≤ '5' then some (c.toNat - '0'.toNat) else none

/-- Scan for `re.search(r"\b(1|2|3|4|5)\b", ·)`: the first digit `1`-`5`
delimited by word boundaries, carrying the previous character for the
left boundary test. -/
def findBedroomDigitAux (prev : Option Char) : List Char → Option Nat
  | [] => none
  | c :: rest =>
      let boundaryBefore := match prev with
        | none => true
        | some p => !isWordChar p
      let boundaryAfter := match rest with
        | [] => true
        | r :: _ => !isWordChar r
      match digitVal c with
      | some d =>
          if boundaryBefore && boundaryAfter then some d
          else findBedroomDigitAux (some c) rest
      | none => findBedroomDigitAux (some c) rest

/-- First word-boundary-delimited digit `1`-`5` in the list
(`int(m.group(1))` of app.py line 618). -/
def findBedroomDigit (l : List Char) : Option Nat := findBedroomDigitAux none l

/-- Booking keyword list of `detect_simple_intent` (app.py line 503). -/
def bookKws : List String :=
  ["book", "schedule", "i want", "i\x27d like", "please book", "yes", "confirm", "sounds good"]

/-- Location keyword list of `detect_simple_intent` (app.py line 507). -/
def locKws : List String :=
  ["address", "street", "avenue", "road", "apt", "suite", "city", "postal", "code"]

/-- Availability keyword list of `detect_simple_intent` (app.py line 509). -/
def availKws : List String :=
  ["today", "tomorrow", "am", "pm", "morning", "evening"]

/-- Service keyword list of `detect_simple_intent` (app.py line 511). -/
def svcKws : List String :=
  ["deep cleaning", "standard cleaning", "move", "post construction", "hourly"]

/-- Booking rule of the classifier: any booking keyword occurs. -/
def bookHit (t : String) : Bool := bookKws.any (fun x => containsStr t x)

/-- Email rule of the classifier: the email regex matches or the literal
keyword `email` occurs (app.py line 505). -/
def emailHit (t : String) : Bool := emailSearch t || containsStr t "email"

/-- Location rule of the classifier. -/
def locHit (t : String) : Bool := locKws.any (fun x => containsStr t x)

/-- Availability rule of the classifier. -/
def availHit (t : String) : Bool := availKws.any (fun x => containsStr t x)

/-- Service-name rule of the classifier. -/
def svcHit (t : String) : Bool := svcKws.any (fun x => containsStr t x)

/-- `detect_simple_intent` (app.py lines 501-513): ordered keyword rules
over the lowercased utterance with fallback tag `question`. -/
def detect_simple_intent (text : String) : String :=
  if bookHit (lowerS text) then "book"
  else if emailHit (lowerS text) then "email"
  else if locHit (lowerS text) then "location"
  else if availHit (lowerS text) then "availability"
  else if svcHit (lowerS text) then "service_choice"
  else "question"

/-- Modelled from the claim wording of C7 (spec section 4.1): the same
ordered rules, but with the email rule as the `local@domain.tld` pattern
match only, without the literal keyword `email` that the source also
accepts.  Used solely to compare the claim against the source classifier. -/
def classifyClaimOrder (text : String) : String :=
  if bookHit (lowerS text) then "book"
  else if emailSearch (lowerS text) then "email"
  else if locHit (lowerS text) then "location"
  else if availHit (lowerS text) then "availability"
  else if svcHit (lowerS text) then "service_choice"
  else "question"

/-- A row of the `services` table as returned by `search_knowledge_base`
(name, description, price). -/
structure Service where
  name : String
  description : String
  price : String
deriving DecidableEq

/-- Per-caller session dictionary (`call_state[phone]`), with each key
optional as in a Python dict.  `bedrooms` is tested by key presence in
the source, the string fields by truthiness. -/
structure Session where
  phase : Option String
  name : Option String
  email : Option String
  city : Option String
  address : Option String
  service : Option String
  message : Option String
  bedrooms : Option Nat
deriving DecidableEq

/-- Python truthiness of an optional string (`state.get(k)` in an `if`). -/
def truthy : Option String → Bool
  | none => false
  | some s => !(s = "")

/-- Row written by `save_request_to_db` into `confirmed_requests`
(app.py lines 242-261). -/
structure Booking where
  name : Option String
  email : Option String
  phone : String
  city : Option String
  address : Option String
  service : Option String
  bedrooms : Option Nat
  message : Option String
  confirmation : Option String
  bookingTime : Option String
deriving DecidableEq

/-- Database side effects the handler performs, in program order. -/
inductive Effect where
  | logInteraction (phone intent transcript response : String)
  | saveBooking (b : Booking)
  | markSlot (day slot : String)
  | updateBookingTime (phone time : String)
deriving DecidableEq

/-- TwiML response shape: every branch of `gather` emits a reply followed
by a `Gather` verb (Play or Say depending on voice synthesis), while
`confirm_time` emits a reply followed by `Hangup`. -/
inductive Resp where
  | sayGather (text : String)
  | playGather (url : String)
  | sayHangup (text : String)
  | playHangup (url : String)
deriving DecidableEq

/-- Whether the response solicits a further caller turn (`Gather` present). -/
def Resp.continuesGathering : Resp → Bool
  | Resp.sayGather _ => true
  | Resp.playGather _ => true
  | Resp.sayHangup _ => false
  | Resp.playHangup _ => false

/-- Environment of one turn: the current dates (from `datetime.date`),
the database contents the queries see, the voice/AI collaborators, and
failure flags for the sqlite calls the source leaves unguarded.  The
`faqs` table exists in the schema (app.py lines 83-92) but `gather`
never reads it. -/
structure Env where
  todayISO : String
  tomorrowISO : String
  services : List Service
  faqs : List (String × String)
  voiceUrl : String → Option String
  aiReply : String → String
  logFails : Bool
  kbFails : Bool
  saveFails : Bool
  slotFails : Bool

/-- Result of a successful turn. -/
structure TurnResult where
  state : Session
  response : Resp
  effects : List Effect
deriving DecidableEq

/-- Reply rendering in `gather`: `generate_voice` result decides Play vs
Say (the repeated `if audio_url` pattern). -/
def mkGatherResp (env : Env) (text : String) : Resp :=
  match env.voiceUrl text with
  | some url => Resp.playGather url
  | none => Resp.sayGather text

/-- Hangup rendering used by `confirm_time`. -/
def mkHangupResp (env : Env) (text : String) : Resp :=
  match env.voiceUrl text with
  | some url => Resp.playHangup url
  | none => Resp.sayHangup text

/-- `search_knowledge_base` (app.py lines 281-288): rows of `services`
whose name or description contains the query, case-insensitively (SQL
`LIKE` with wildcards on both sides), limited to 6. -/
def searchKnowledgeBase (env : Env) (q : String) : List Service :=
  (env.services.filter
    (fun svc => hasInfixL (lowerL svc.name.data) (lowerL q.data)
      || hasInfixL (lowerL svc.description.data) (lowerL q.data))).take 6

/-- One summary entry of the knowledge-base reply: name, plus price when
the price string is truthy (app.py lines 538-542). -/
def svcPart (svc : Service) : String :=
  if svc.price = "" then svc.name else svc.name ++ " — " ++ svc.price

/-- Knowledge-base reply text (app.py line 543). -/
def kbReplyText (kb : List Service) : String :=
  "I found: " ++ String.intercalate "; " ((kb.take 3).map svcPart)
    ++ ". Would you like to book one of these?"

/-- Day parsing of the availability phase (app.py lines 629-637) over the
lowercased utterance: `today`, then `tomorrow`, then an ISO date literal. -/
def parseDay (env : Env) (t : String) : Option String :=
  if containsStr t "today" then some env.todayISO
  else if containsStr t "tomorrow" then some env.tomorrowISO
  else (findISO t.data).map String.mk

/-- Half-day parsing of the availability phase (app.py lines 638-642). -/
def parseSlot (t : String) : Option String :=
  if containsStr t "am" || containsStr t "morning" then some "AM"
  else if containsStr t "pm" || containsStr t "evening" || containsStr t "afternoon" then some "PM"
  else none

/-- Service menu prompt (app.py line 561). -/
def serviceMenuText : String :=
  "Sure — which service would you like? We offer Standard Cleaning, Deep Cleaning, Move In/Move Out, Post Construction, and Hourly Packages."

/-- Slot question prompt (app.py lines 611 and 622). -/
def slotQuestionText : String :=
  "Thanks — would you like a slot for today or tomorrow, AM or PM?"

/-- Clarifying re-prompt of the availability phase (app.py line 645). -/
def clarifySlotText : String :=
  "Would you prefer AM or PM, and is that for today or tomorrow?"

/-- Re-prompt for an empty utterance (app.py line 523). -/
def emptyRepromptText : String :=
  "Sorry, I didn\x27t catch that. Could you please repeat?"

/-- Python f-string rendering of a possibly-missing value (`None`). -/
def optText : Option String → String
  | some s => s
  | none => "None"

/-- Confirmation text after a booking is saved (app.py line 669). -/
def bookedText (st : Session) (day slot : String) : String :=
  "Booked " ++ st.service.getD "your service" ++ " for " ++ day ++ " " ++ slot
    ++ ". We\x27ll email confirmation to " ++ optText st.email
    ++ ". Anything else I can help with?"

/-- The `confirmed_requests` row assembled at app.py lines 650-660. -/
def mkBooking (phone : String) (st : Session) (day slot : String) : Booking :=
  ⟨st.name, st.email, phone, st.city, st.address, st.service, st.bedrooms,
    st.message, some "yes", some (day ++ " " ++ slot)⟩

/-- Branch taken when booking intent starts the funnel (app.py 557-568):
set the phase to `collecting` and ask for the service or the name. -/
def bookStart (env : Env) (phone : String) (st : Session) (u : String) : TurnResult :=
  ⟨{ st with phase := some "collecting" },
    mkGatherResp env (if truthy st.service then
      "Great. Can I get the full name for the booking?" else serviceMenuText),
    [Effect.logInteraction phone "user_speech" u ""]⟩

/-- Persona-framing template handed to `get_mistral_response` (app.py 677). -/
def llmPromptText (u : String) : String :=
  "You are Ava from Kepsten. The user said: \x27" ++ u
    ++ "\x27. Answer briefly and naturally; include helpful service info if known."

/-- Default branch (app.py 676-684): delegate to the LLM answerer and log
the reply; the second `record_interaction` is as unguarded as the first. -/
def llmFallback (env : Env) (phone : String) (st : Session) (u : String) :
    Except Unit TurnResult :=
  if env.logFails then Except.error ()
  else Except.ok ⟨st, mkGatherResp env (env.aiReply (llmPromptText u)),
    [Effect.logInteraction phone "user_speech" u "",
     Effect.logInteraction phone "ai_reply" u (env.aiReply (llmPromptText u))]⟩

/-- Collecting-phase block (app.py 571-624): capture name, email, city,
address, then bedrooms, each write guarded by an absence check; the
fall-through at the end of the block reaches the LLM default because the
phase is still `collecting` when it happens. -/
def collectingStep (env : Env) (phone : String) (st : Session) (u : String) :
    Except Unit TurnResult :=
  if truthy st.name = false then
    Except.ok ⟨{ st with name := some u, phase := some "collecting" },
      mkGatherResp env "Thanks. What\x27s the best email address for confirmation?",
      [Effect.logInteraction phone "user_speech" u ""]⟩
  else if truthy st.email = false then
    Except.ok ⟨{ st with email := some (match findEmail u.data with
        | some m => String.mk m
        | none => u) },
      mkGatherResp env "Thanks. Which city are you in?",
      [Effect.logInteraction phone "user_speech" u ""]⟩
  else if truthy st.city = false then
    Except.ok ⟨{ st with city := some u },
      mkGatherResp env "Great — can you provide the street address (or nearest intersection)?",
      [Effect.logInteraction phone "user_speech" u ""]⟩
  else if truthy st.address = false then
    if containsStr (lowerS (st.service.getD "")) "deep"
        || containsStr (lowerS u) "deep" then
      Except.ok ⟨{ st with address := some u, phase := some "collecting" },
        mkGatherResp env "How many bedrooms should we plan for? 1, 2, 3, 4 or 5?",
        [Effect.logInteraction phone "user_speech" u ""]⟩
    else
      Except.ok ⟨{ st with address := some u, phase := some "availability" },
        mkGatherResp env slotQuestionText,
        [Effect.logInteraction phone "user_speech" u ""]⟩
  else if st.bedrooms = none
      ∧ (containsStr (lowerS (st.service.getD "")) "deep"
          || (findBedroomDigit u.data).isSome) = true then
    match findBedroomDigit u.data with
    | some d =>
        Except.ok ⟨{ st with bedrooms := some d, phase := some "availability" },
          mkGatherResp env slotQuestionText,
          [Effect.logInteraction phone "user_speech" u ""]⟩
    | none => llmFallback env phone st u
  else
    llmFallback env phone st u

/-- Availability-phase block (app.py 627-674): parse day and slot; on
success save the booking, upsert the slot row unavailable and move to
`done`; otherwise re-ask without touching the state. -/
def availabilityStep (env : Env) (phone : String) (st : Session) (u : String) :
    Except Unit TurnResult :=
  match parseDay env (lowerS u), parseSlot (lowerS u) with
  | some day, some s =>
      if env.saveFails then Except.error ()
      else if env.slotFails then Except.error ()
      else
        Except.ok ⟨{ st with phase := some "done" },
          mkGatherResp env (bookedText st day s),
          [Effect.logInteraction phone "user_speech" u "",
           Effect.saveBooking (mkBooking phone st day s), Effect.markSlot day s]⟩
  | _, _ =>
      Except.ok ⟨st, mkGatherResp env clarifySlotText,
        [Effect.logInteraction phone "user_speech" u ""]⟩

/-- The `/gather` turn handler (app.py 516-684).  The sqlite helpers
`record_interaction` and `search_knowledge_base` and the booking writes
are called outside any `try`, so their failure propagates as an error. -/
def gather (env : Env) (phone : String) (st : Session) (raw : String) :
    Except Unit TurnResult :=
  if strip raw = "" then
    Except.ok ⟨st, mkGatherResp env emptyRepromptText, []⟩
  else if env.logFails then Except.error ()
  else if env.kbFails then Except.error ()
  else if searchKnowledgeBase env (strip raw) = [] then
    if detect_simple_intent (strip raw) = "book"
        ∧ st.phase ≠ some "collecting" ∧ st.phase ≠ some "confirming" then
      Except.ok (bookStart env phone st (strip raw))
    else if st.phase = some "collecting" then
      collectingStep env phone st (strip raw)
    else if st.phase = some "availability" then
      availabilityStep env phone st (strip raw)
    else
      llmFallback env phone st (strip raw)
  else
    Except.ok ⟨st, mkGatherResp env (kbReplyText (searchKnowledgeBase env (strip raw))),
      [Effect.logInteraction phone "user_speech" (strip raw) ""]⟩

/-- The `/confirm-time` endpoint (app.py 688-701): update the booking
time when a time was heard, then hang up. -/
def confirm_time (env : Env) (phone : String) (raw : String) :
    Resp × List Effect :=
  let t := strip raw
  if t = "" then
    (mkHangupResp env "We didn\x27t catch a time. Goodbye!", [])
  else
    (mkHangupResp env ("Thank you. We\x27ve scheduled your service for " ++ t ++ ". Goodbye!"),
      [Effect.updateBookingTime phone t])

/-- Key match on a (day, slot, is_available) row, the `UNIQUE(day, slot)`
conflict target. -/
def slotKeyB (day slot : String) (r : String × String × Bool) : Bool :=
  r.1 = day ∧ r.2.1 = slot

/-- The availability-slot upsert (app.py line 664, mirroring the SQL
`INSERT ... ON CONFLICT(day, slot) DO UPDATE SET is_available=0` over a
table of (day, slot, is_available) rows with `UNIQUE(day, slot)`). -/
def markSlotTaken (day slot : String) (tbl : List (String × String × Bool)) :
    List (String × String × Bool) :=
  if tbl.any (slotKeyB day slot) then
    tbl.map (fun r => if slotKeyB day slot r then (r.1, r.2.1, false) else r)
  else tbl ++ [(day, slot, false)]

/-- Availability flag of the (day, slot) row, if present. -/
def lookupSlot (tbl : List (String × String × Bool)) (day slot : String) :
    Option Bool :=
  (tbl.find? (slotKeyB day slot)).map (fun r => r.2.2)

/-- Drive several turns for one caller, accumulating effects; `none` when
some turn raised. -/
def runTurns (env : Env) (phone : String) : Session → List String → Option (Session × List Effect)
  | st, [] => some (st, [])
  | st, u :: us =>
      match gather env phone st u with
      | Except.ok r =>
          match runTurns env phone r.state us with
          | some (s2, es) => some (s2, r.effects ++ es)
          | none => none
      | Except.error _ => none

/-- Bookings among a turn's effects. -/
def bookingsOf (es : List Effect) : List Booking :=
  es.filterMap (fun e => match e with
    | Effect.saveBooking b => some b
    | _ => none)

/-- Slot-marking writes among a turn's effects. -/
def slotMarksOf (es : List Effect) : List (String × String) :=
  es.filterMap (fun e => match e with
    | Effect.markSlot d s => some (d, s)
    | _ => none)

/-- Projection of a handler outcome for concrete evaluation. -/
def okOf : Except Unit TurnResult → Option TurnResult
  | Except.ok r => some r
  | Except.error _ => none

/-- Empty session, as created by `call_state.setdefault(phone, {})`. -/
def sessionEmpty : Session := ⟨none, none, none, none, none, none, none, none⟩

/-- Benign environment: empty knowledge store, no voice synthesis, a
fixed AI reply, no collaborator failures, concrete dates. -/
def envBase : Env :=
  ⟨"2026-10-12", "2026-10-13", [], [], fun _ => none, fun _ => "Happy to help!",
    false, false, false, false⟩

/-- Environment in which the interactions insert raises. -/
def envLogFail : Env := { envBase with logFails := true }

/-- Environment in which the services query raises. -/
def envKbFail : Env := { envBase with kbFails := true }

/-- Environment in which the booking insert raises. -/
def envSaveFail : Env := { envBase with saveFails := true }

/-- Environment with one FAQ row and no services. -/
def envFaq : Env := { envBase with faqs := [("do you clean windows", "Yes, we do.")] }

/-- Environment with one service row. -/
def envSvc : Env :=
  { envBase with services := [⟨"Deep Cleaning", "thorough deep cleaning", "$200"⟩] }

/-- Mid-funnel session at the name-capture step. -/
def stNameStep : Session := ⟨some "collecting", none, none, none, none, none, none, none⟩

/-- Session at the bedroom-capture step of a deep-cleaning booking. -/
def stBed : Session := ⟨some "collecting", some "John", some "j@x.com", some "Toronto",
  some "12 Main", some "Deep Cleaning", none, none⟩

/-- Session in the availability (slot-choice) phase. -/
def stAvail : Session := ⟨some "availability", some "John", some "j@x.com", some "Toronto",
  some "12 Main", none, none, none⟩

/-- Rows of `markSlotTaken day slot tbl` that match the key carry a false flag. -/
theorem markSlotTaken_matching_false (day slot : String)
    (tbl : List (String × String × Bool)) :
    ∀ r ∈ markSlotTaken day slot tbl, slotKeyB day slot r = true → r.2.2 = false := by
  intro r hr hkey
  unfold markSlotTaken at hr
  split_ifs at hr with h
  · rcases List.mem_map.mp hr with ⟨r0, _, hfr⟩
    by_cases h0 : slotKeyB day slot r0 = true
    · simp [h0] at hfr
      rw [← hfr]
    · simp [h0] at hfr
      rw [← hfr] at hkey
      exact absurd hkey h0
  · rcases List.mem_append.mp hr with h1 | h1
    · rw [List.any_eq_true] at h
      exact absurd ⟨r, h1, hkey⟩ h
    · simp at h1
      rw [h1]

/-- The marked table always contains a row matching the key. -/
theorem markSlotTaken_any (day slot : String) (tbl : List (String × String × Bool)) :
    (markSlotTaken day slot tbl).any (slotKeyB day slot) = true := by
  unfold markSlotTaken
  split_ifs with h
  · rw [List.any_eq_true] at h ⊢
    obtain ⟨r, hr, hpr⟩ := h
    refine ⟨(r.1, r.2.1, false), List.mem_map.mpr ⟨r, hr, by simp [hpr]⟩, ?_⟩
    simp [slotKeyB] at hpr ⊢
    exact hpr
  · rw [List.any_append]
    simp [slotKeyB]

/-- Mapping a pointwise-identity function leaves a list unchanged. -/
theorem map_pointwise_id {α : Type} (f : α → α) (l : List α)
    (h : ∀ a ∈ l, f a = a) : l.map f = l := by
  induction l with
  | nil => rfl
  | cons a t ih =>
      simp only [List.map_cons, h a (List.mem_cons_self a t),
        ih (fun x hx => h x (List.mem_cons_of_mem a hx))]

/-- C4: `markSlotTaken` is idempotent: marking the same (day, slot) twice
equals marking it once, and the marked table holds the (day, slot) row
with its availability flag false (not re-toggled back to true). -/
theorem c4_markSlotTaken_idempotent (day slot : String)
    (tbl : List (String × String × Bool)) :
    markSlotTaken day slot (markSlotTaken day slot tbl) = markSlotTaken day slot tbl
      ∧ lookupSlot (markSlotTaken day slot tbl) day slot = some false := by
  constructor
  · conv_lhs => rw [markSlotTaken]
    rw [if_pos (markSlotTaken_any day slot tbl)]
    apply map_pointwise_id
    intro r hr
    by_cases hk : slotKeyB day slot r = true
    · have hfalse := markSlotTaken_matching_false day slot tbl r hr hk
      obtain ⟨a, b, c⟩ := r
      simp only [slotKeyB, decide_eq_true_eq] at hk
      simp only at hfalse
      simp [slotKeyB, hk.1, hk.2, hfalse]
    · simp [hk]
  · have hany := markSlotTaken_any day slot tbl
    rw [List.any_eq_true] at hany
    have hsome : ((markSlotTaken day slot tbl).find? (slotKeyB day slot)).isSome := by
      rw [List.find?_isSome]
      exact hany
    obtain ⟨r, hfind⟩ := Option.isSome_iff_exists.mp hsome
    have hkey := List.find?_some hfind
    have hmem := List.mem_of_find?_eq_some hfind
    have hfalse := markSlotTaken_matching_false day slot tbl r hmem hkey
    rw [lookupSlot, hfind]
    simp [hfalse]

/-- C9: on an empty (or whitespace-only) utterance the turn handler
replies with the repeat re-prompt, leaves the session entirely
unchanged, performs no database write, and raises nothing. -/
theorem c9_empty_utterance_reprompt (env : Env) (phone : String) (st : Session)
    (raw : String) (h : strip raw = "") :
    gather env phone st raw = Except.ok ⟨st, mkGatherResp env emptyRepromptText, []⟩ := by
  unfold gather
  rw [if_pos h]

/-- Witness for C9: the empty utterance on a fresh session. -/
theorem c9_witness :
    gather envBase "p" sessionEmpty "" =
      Except.ok ⟨sessionEmpty, Resp.sayGather emptyRepromptText, []⟩ := by
  have h := c9_empty_utterance_reprompt envBase "p" sessionEmpty "" (by decide)
  rw [h]
  rfl

/-- C3 (failing input): when the interactions insert, the services query,
or the booking insert raises, the turn handler propagates the error and
produces no prompt at all, instead of degrading to the next rule as the
spec requires. -/
theorem c3_unguarded_db_failure_aborts :
    gather envLogFail "p" sessionEmpty "hello there" = Except.error ()
      ∧ gather envKbFail "p" sessionEmpty "hello there" = Except.error ()
      ∧ gather envSaveFail "p" stAvail "tomorrow pm" = Except.error () := by
  refine ⟨?_, ?_, ?_⟩ <;> rfl

/-- C7 (counterexample): the source's email rule also fires on the bare
keyword `email`, not only on the `local@domain.tld` pattern the claim
describes, so on `"my email"` the source classifier answers `email`
while the claim's rule order yields the fallback `question`. -/
theorem c7_counterexample :
    detect_simple_intent "my email" = "email"
      ∧ classifyClaimOrder "my email" = "question"
      ∧ detect_simple_intent "my email" ≠ classifyClaimOrder "my email" := by
  refine ⟨by decide, by decide, by decide⟩

/-- C7 (amended): the classifier is a pure total function returning
exactly one tag, evaluating rules in the fixed order booking keywords,
then the email rule (pattern match OR the literal keyword `email`), then
location keywords, then availability keywords, then service-name
keywords, with fallback `question`. -/
theorem c7_amended_rule_order (t : String) :
    (detect_simple_intent t = "book" ∨ detect_simple_intent t = "email"
      ∨ detect_simple_intent t = "location" ∨ detect_simple_intent t = "availability"
      ∨ detect_simple_intent t = "service_choice" ∨ detect_simple_intent t = "question")
    ∧ (bookHit (lowerS t) = true → detect_simple_intent t = "book")
    ∧ (bookHit (lowerS t) = false → emailHit (lowerS t) = true →
        detect_simple_intent t = "email")
    ∧ (bookHit (lowerS t) = false → emailHit (lowerS t) = false →
        locHit (lowerS t) = true → detect_simple_intent t = "location")
    ∧ (bookHit (lowerS t) = false → emailHit (lowerS t) = false →
        locHit (lowerS t) = false → availHit (lowerS t) = true →
        detect_simple_intent t = "availability")
    ∧ (bookHit (lowerS t) = false → emailHit (lowerS t) = false →
        locHit (lowerS t) = false → availHit (lowerS t) = false →
        svcHit (lowerS t) = true → detect_simple_intent t = "service_choice")
    ∧ (bookHit (lowerS t) = false → emailHit (lowerS t) = false →
        locHit (lowerS t) = false → availHit (lowerS t) = false →
        svcHit (lowerS t) = false → detect_simple_intent t = "question") := by
  unfold detect_simple_intent
  split_ifs with h1 h2 h3 h4 h5 <;> simp_all

/-- Witness for C7's amended rule order at a rule-free utterance. -/
theorem c7_witness : detect_simple_intent "puzzle" = "question" :=
  (c7_amended_rule_order "puzzle").2.2.2.2.2.2
    (by decide) (by decide) (by decide) (by decide) (by decide)

/-- Gather-style responses always solicit another turn. -/
theorem mkGatherResp_continues (env : Env) (s : String) :
    (mkGatherResp env s).continuesGathering = true := by
  unfold mkGatherResp
  cases env.voiceUrl s <;> rfl

/-- Characterization of a successful LLM-fallback turn. -/
theorem llmFallback_ok_eq (env : Env) (phone : String) (st : Session) (u : String)
    (r : TurnResult) (h : llmFallback env phone st u = Except.ok r) :
    r = ⟨st, mkGatherResp env (env.aiReply (llmPromptText u)),
      [Effect.logInteraction phone "user_speech" u "",
       Effect.logInteraction phone "ai_reply" u (env.aiReply (llmPromptText u))]⟩ := by
  unfold llmFallback at h
  split_ifs at h
  all_goals first
    | exact Except.noConfusion h
    | (injection h with h0; exact h0.symm)

/-- Every successful collecting-phase turn renders its reply through the
Play-or-Say gather pattern. -/
theorem collectingStep_response_shape (env : Env) (phone : String) (st : Session)
    (u : String) (r : TurnResult) (h : collectingStep env phone st u = Except.ok r) :
    ∃ text, r.response = mkGatherResp env text := by
  unfold collectingStep at h
  split_ifs at h
  all_goals first
    | (injection h with h0; exact ⟨_, by rw [← h0]⟩)
    | (rw [llmFallback_ok_eq env phone st u r h]; exact ⟨_, rfl⟩)
    | (split at h <;> first
        | (injection h with h0; exact ⟨_, by rw [← h0]⟩)
        | (rw [llmFallback_ok_eq env phone st u r h]; exact ⟨_, rfl⟩))

/-- Every successful availability-phase turn renders its reply through
the Play-or-Say gather pattern. -/
theorem availabilityStep_response_shape (env : Env) (phone : String) (st : Session)
    (u : String) (r : TurnResult) (h : availabilityStep env phone st u = Except.ok r) :
    ∃ text, r.response = mkGatherResp env text := by
  unfold availabilityStep at h
  split at h
  · split_ifs at h
    all_goals first
      | exact Except.noConfusion h
      | (injection h with h0; exact ⟨_, by rw [← h0]⟩)
  · injection h with h0
    exact ⟨_, by rw [← h0]⟩

/-- Every successful turn of the handler renders its reply through the
Play-or-Say gather pattern. -/
theorem gather_ok_response_shape (env : Env) (phone : String) (st : Session)
    (u : String) (r : TurnResult) (h : gather env phone st u = Except.ok r) :
    ∃ text, r.response = mkGatherResp env text := by
  unfold gather at h
  split_ifs at h
  all_goals first
    | exact Except.noConfusion h
    | (injection h with h0; exact ⟨_, by rw [← h0]⟩)
    | (unfold bookStart at h; injection h with h0; exact ⟨_, by rw [← h0]⟩)
    | exact collectingStep_response_shape env phone st (strip u) r h
    | exact availabilityStep_response_shape env phone st (strip u) r h
    | (rw [llmFallback_ok_eq env phone st (strip u) r h]; exact ⟨_, rfl⟩)

/-- Result of the booking-completing turn in the benign environment. -/
def rBooked : TurnResult :=
  ⟨⟨some "done", some "John", some "j@x.com", some "Toronto", some "12 Main", none, none, none⟩,
    Resp.sayGather (bookedText stAvail "2026-10-13" "PM"),
    [Effect.logInteraction "p" "user_speech" "tomorrow pm" "",
     Effect.saveBooking (mkBooking "p" stAvail "2026-10-13" "PM"),
     Effect.markSlot "2026-10-13" "PM"]⟩

/-- C8 (counterexample): the turn that completes a booking (transition
into the `done` phase) still responds with a Gather, i.e. it solicits a
further caller turn instead of signalling that the call may end. -/
theorem c8_counterexample :
    gather envBase "p" stAvail "tomorrow pm" = Except.ok rBooked
      ∧ rBooked.state.phase = some "done"
      ∧ rBooked.response.continuesGathering = true := by
  refine ⟨by rfl, by rfl, by rfl⟩

/-- C8 (amended): every branch of the turn handler that produces a reply
returns a continue-gathering signal, with no exception: the transition
into the `done` phase also solicits a further caller turn, and no
silence-timeout hang-up path exists in the turn handler (the only
hang-up responses come from the separate confirm-time endpoint). -/
theorem c8_amended_always_continues (env : Env) (phone : String) (st : Session)
    (u : String) (r : TurnResult) (h : gather env phone st u = Except.ok r) :
    r.response.continuesGathering = true := by
  obtain ⟨text, ht⟩ := gather_ok_response_shape env phone st u r h
  rw [ht]
  exact mkGatherResp_continues env text

/-- Witness for C8's amended statement at the booking-completing turn. -/
theorem c8_witness : rBooked.response.continuesGathering = true :=
  c8_amended_always_continues envBase "p" stAvail "tomorrow pm" rBooked (by rfl)

/-- Result of the turn on the mid-funnel FAQ question: the question text
is swallowed as the caller's name. -/
def rFaqMiss : TurnResult :=
  ⟨⟨some "collecting", some "do you clean windows", none, none, none, none, none, none⟩,
    Resp.sayGather "Thanks. What\x27s the best email address for confirmation?",
    [Effect.logInteraction "p" "user_speech" "do you clean windows" ""]⟩

/-- Result of the turn on a service-matching utterance in the
availability phase: state untouched, summary reply. -/
def rSvcHit : TurnResult :=
  ⟨stAvail,
    Resp.sayGather "I found: Deep Cleaning — $200. Would you like to book one of these?",
    [Effect.logInteraction "p" "user_speech" "deep" ""]⟩

/-- C2 (counterexample): with an FAQ row whose question equals the
utterance and no matching service, the mid-funnel caller does not
receive the FAQ answer — the FAQ table is never consulted — and the
session does change: the utterance is captured as the caller's name. -/
theorem c2_counterexample :
    gather envFaq "p" stNameStep "do you clean windows" = Except.ok rFaqMiss
      ∧ envFaq.faqs = [("do you clean windows", "Yes, we do.")]
      ∧ rFaqMiss.response = Resp.sayGather "Thanks. What\x27s the best email address for confirmation?"
      ∧ rFaqMiss.response ≠ Resp.sayGather "Yes, we do."
      ∧ rFaqMiss.state ≠ stNameStep := by
  refine ⟨by rfl, by rfl, by rfl, by decide, by decide⟩

/-- C2 (amended): the knowledge lookup matches the utterance as a
case-insensitive substring of service names and descriptions only
(limit 6); the FAQ table is never consulted by the turn handler (the
whole turn is independent of it); and on a knowledge hit the reply is
the service summary and the session state is unchanged. -/
theorem c2_amended_service_substring_lookup (env : Env) :
    (∀ faqs2 phone st u, gather { env with faqs := faqs2 } phone st u = gather env phone st u)
    ∧ (∀ q, searchKnowledgeBase env q = [] ↔ ∀ svc ∈ env.services,
        hasInfixL (lowerL svc.name.data) (lowerL q.data) = false
          ∧ hasInfixL (lowerL svc.description.data) (lowerL q.data) = false)
    ∧ (∀ phone st u r, strip u ≠ "" →
        gather env phone st u = Except.ok r → searchKnowledgeBase env (strip u) ≠ [] →
        r.state = st
          ∧ r.response = mkGatherResp env (kbReplyText (searchKnowledgeBase env (strip u)))
          ∧ r.effects = [Effect.logInteraction phone "user_speech" (strip u) ""]) := by
  refine ⟨fun faqs2 phone st u => rfl, ?_, ?_⟩
  · intro q
    simp [searchKnowledgeBase, List.take_eq_nil_iff, List.filter_eq_nil,
      not_or, containsStr]
  · intro phone st u r hne h hkb
    unfold gather at h
    split_ifs at h with h1 h2 h3 h4 h5 h6 h7
    all_goals first
      | exact absurd h1 hne
      | exact absurd h4 hkb
      | (injection h with h0; rw [← h0]; exact ⟨rfl, rfl, rfl⟩)

/-- Witness for C2's amended statement: a service hit mid-funnel leaves
the session unchanged and replies with the summary. -/
theorem c2_witness :
    rSvcHit.state = stAvail
      ∧ rSvcHit.response = mkGatherResp envSvc (kbReplyText (searchKnowledgeBase envSvc (strip "deep")))
      ∧ rSvcHit.effects = [Effect.logInteraction "p" "user_speech" (strip "deep") ""] :=
  (c2_amended_service_substring_lookup envSvc).2.2 "p" stAvail "deep" rSvcHit
    (by decide) (by rfl) (by decide)

/-- Result of the turn on `"yes maybe later"` in the availability phase:
the booking keyword `yes` restarts the collecting flow. -/
def rYesLater : TurnResult :=
  ⟨⟨some "collecting", some "John", some "j@x.com", some "Toronto", some "12 Main",
      none, none, none⟩,
    Resp.sayGather serviceMenuText,
    [Effect.logInteraction "p" "user_speech" "yes maybe later" ""]⟩

/-- Result of the clarifying re-prompt turn in the availability phase. -/
def rClarify : TurnResult :=
  ⟨stAvail, Resp.sayGather clarifySlotText,
    [Effect.logInteraction "p" "user_speech" "maybe later" ""]⟩

/-- C6 (counterexample): `"yes maybe later"` carries no day and no
half-day token, yet in the slot stage it does not stay there with a
clarifying re-prompt: the keyword `yes` classifies as booking intent and
resets the phase to `collecting` with the service-menu prompt (no
booking is created, as the claim says). -/
theorem c6_counterexample :
    gather envBase "p" stAvail "yes maybe later" = Except.ok rYesLater
      ∧ parseDay envBase (lowerS "yes maybe later") = none
      ∧ parseSlot (lowerS "yes maybe later") = none
      ∧ stAvail.phase = some "availability"
      ∧ rYesLater.state.phase = some "collecting"
      ∧ rYesLater.response ≠ Resp.sayGather clarifySlotText
      ∧ bookingsOf rYesLater.effects = [] := by
  refine ⟨by rfl, by decide, by decide, by rfl, by rfl, by decide, by rfl⟩

/-- C6 (amended): in the slot stage, an utterance that produces no
knowledge hit and is not classified as booking intent, and from which no
day or no half-day token parses, leaves the session unchanged, produces
the clarifying re-prompt, and creates no booking and no slot write. -/
theorem c6_amended_no_slot_reprompt (env : Env) (phone : String) (st : Session)
    (u : String) (r : TurnResult)
    (hne : strip u ≠ "")
    (hkb : searchKnowledgeBase env (strip u) = [])
    (hintent : detect_simple_intent (strip u) ≠ "book")
    (hphase : st.phase = some "availability")
    (hparse : parseDay env (lowerS (strip u)) = none ∨ parseSlot (lowerS (strip u)) = none)
    (h : gather env phone st u = Except.ok r) :
    r.state = st ∧ r.response = mkGatherResp env clarifySlotText
      ∧ r.effects = [Effect.logInteraction phone "user_speech" (strip u) ""]
      ∧ bookingsOf r.effects = [] ∧ slotMarksOf r.effects = [] := by
  unfold gather at h
  rw [hphase] at h
  rw [if_neg hne] at h
  by_cases hlf : env.logFails = true
  · rw [if_pos hlf] at h
    exact Except.noConfusion h
  rw [if_neg hlf] at h
  by_cases hkf : env.kbFails = true
  · rw [if_pos hkf] at h
    exact Except.noConfusion h
  rw [if_neg hkf] at h
  rw [if_pos hkb] at h
  rw [if_neg (fun hx => hintent hx.1)] at h
  rw [if_neg (by decide)] at h
  rw [if_pos rfl] at h
  unfold availabilityStep at h
  split at h
  · rcases hparse with hp | hp <;> simp_all
  · injection h with h0
    rw [← h0]
    exact ⟨rfl, rfl, rfl, rfl, rfl⟩

/-- Witness for C6's amended statement at `"maybe later"`. -/
theorem c6_witness :
    rClarify.state = stAvail ∧ rClarify.response = mkGatherResp envBase clarifySlotText
      ∧ rClarify.effects = [Effect.logInteraction "p" "user_speech" (strip "maybe later") ""]
      ∧ bookingsOf rClarify.effects = [] ∧ slotMarksOf rClarify.effects = [] :=
  c6_amended_no_slot_reprompt envBase "p" stAvail "maybe later" rClarify
    (by decide) (by rfl) (by decide) (by rfl) (Or.inl (by decide)) (by rfl)

/-- Result of the turn on the word utterance `"three"` at the bedroom
step: no word-to-number table exists, so nothing is captured. -/
def rThree : TurnResult :=
  ⟨stBed, Resp.sayGather "Happy to help!",
    [Effect.logInteraction "p" "user_speech" "three" "",
     Effect.logInteraction "p" "ai_reply" "three" "Happy to help!"]⟩

/-- Result of the turn on `"3 bedrooms"` at the bedroom step. -/
def rBed3 : TurnResult :=
  ⟨⟨some "availability", some "John", some "j@x.com", some "Toronto", some "12 Main",
      some "Deep Cleaning", none, some 3⟩,
    Resp.sayGather slotQuestionText,
    [Effect.logInteraction "p" "user_speech" "3 bedrooms" ""]⟩

/-- C5 (counterexample): at the bedroom step, the word utterance
`"three"` leaves the bedroom count unset (the claim promises the mapped
integer 3) and the flow does not advance to any confirmation stage: the
state is entirely unchanged and the turn falls through to the free-form
answerer. -/
theorem c5_counterexample :
    gather envBase "p" stBed "three" = Except.ok rThree
      ∧ rThree.state.bedrooms = none
      ∧ rThree.state.bedrooms ≠ some 3
      ∧ rThree.state.phase = some "collecting"
      ∧ rThree.state = stBed := by
  refine ⟨by rfl, by rfl, by decide, by rfl, by rfl⟩

/-- C5 (amended): at the bedroom step (collecting phase, name, email,
city and address present, bedroom count unset, no knowledge hit), a
word-boundary-delimited digit `1`-`5` in the utterance is stored and the
phase advances to `availability`; there is no word-to-number table, and
when the digit regex fails the bedroom count stays unset and the state
is unchanged (no advance to a confirmation stage). -/
theorem c5_amended_digit_regex_only (env : Env) (phone : String) (st : Session)
    (u : String) (r : TurnResult)
    (hne : strip u ≠ "")
    (hkb : searchKnowledgeBase env (strip u) = [])
    (hphase : st.phase = some "collecting")
    (hname : truthy st.name = true) (hemail : truthy st.email = true)
    (hcity : truthy st.city = true) (haddr : truthy st.address = true)
    (hbed : st.bedrooms = none)
    (h : gather env phone st u = Except.ok r) :
    (∀ d, findBedroomDigit (strip u).data = some d →
      r.state.bedrooms = some d ∧ r.state.phase = some "availability")
    ∧ (findBedroomDigit (strip u).data = none → r.state = st) := by
  unfold gather at h
  rw [hphase, if_neg hne] at h
  by_cases hlf : env.logFails = true
  · rw [if_pos hlf] at h
    exact Except.noConfusion h
  rw [if_neg hlf] at h
  by_cases hkf : env.kbFails = true
  · rw [if_pos hkf] at h
    exact Except.noConfusion h
  rw [if_neg hkf, if_pos hkb] at h
  rw [if_neg (fun hx => hx.2.1 rfl)] at h
  rw [if_pos rfl] at h
  unfold collectingStep at h
  rw [if_neg (by simp [hname]), if_neg (by simp [hemail]), if_neg (by simp [hcity]),
    if_neg (by simp [haddr])] at h
  rcases hfd : findBedroomDigit (strip u).data with _ | d
  · have hllm : llmFallback env phone st (strip u) = Except.ok r := by
      by_cases hdeep : containsStr (lowerS (st.service.getD "")) "deep" = true
      · rw [if_pos ⟨hbed, by rw [hdeep, hfd]; rfl⟩] at h
        rw [hfd] at h
        exact h
      · rw [Bool.not_eq_true] at hdeep
        rw [if_neg (fun hx => by rw [hdeep, hfd] at hx; exact absurd hx.2 (by decide))] at h
        exact h
    rw [llmFallback_ok_eq env phone st (strip u) r hllm]
    refine ⟨?_, fun _ => rfl⟩
    intro d' hd'
    exact Option.noConfusion hd'
  · rw [if_pos ⟨hbed, by rw [hfd]; simp⟩] at h
    rw [hfd] at h
    injection h with h0
    refine ⟨?_, ?_⟩
    · intro d' hd'
      injection hd' with hdd
      rw [← h0, hdd]
      exact ⟨rfl, rfl⟩
    · intro hnone
      exact Option.noConfusion hnone

/-- Witness for C5's amended statement at `"3 bedrooms"`. -/
theorem c5_witness :
    rBed3.state.bedrooms = some 3 ∧ rBed3.state.phase = some "availability" :=
  (c5_amended_digit_regex_only envBase "p" stBed "3 bedrooms" rBed3
    (by decide) (by rfl) (by rfl) (by rfl) (by rfl) (by rfl) (by rfl) (by rfl)
    (by rfl)).1 3 (by decide)

/-- A non-empty optional string is truthy. -/
theorem truthy_some_ne (v : String) (hv : v ≠ "") : truthy (some v) = true := by
  simp [truthy, hv]

/-- Collecting-phase captures are write-once: a field already holding a
non-empty value is never overwritten, and a set bedroom count persists. -/
theorem collectingStep_write_once (env : Env) (phone : String) (st : Session)
    (u : String) (r : TurnResult) (h : collectingStep env phone st u = Except.ok r) :
    (∀ v, v ≠ "" → st.name = some v → r.state.name = some v)
    ∧ (∀ v, v ≠ "" → st.email = some v → r.state.email = some v)
    ∧ (∀ v, v ≠ "" → st.city = some v → r.state.city = some v)
    ∧ (∀ v, v ≠ "" → st.address = some v → r.state.address = some v)
    ∧ (∀ n, st.bedrooms = some n → r.state.bedrooms = some n) := by
  unfold collectingStep at h
  by_cases hn : truthy st.name = false
  · rw [if_pos hn] at h
    injection h with h0
    rw [← h0]
    refine ⟨?_, fun v hv hsv => hsv, fun v hv hsv => hsv, fun v hv hsv => hsv,
      fun n hsn => hsn⟩
    intro v hv hsv
    rw [hsv, truthy_some_ne v hv] at hn
    exact Bool.noConfusion hn
  rw [if_neg hn] at h
  by_cases he : truthy st.email = false
  · rw [if_pos he] at h
    injection h with h0
    rw [← h0]
    refine ⟨fun v hv hsv => hsv, ?_, fun v hv hsv => hsv, fun v hv hsv => hsv,
      fun n hsn => hsn⟩
    intro v hv hsv
    rw [hsv, truthy_some_ne v hv] at he
    exact Bool.noConfusion he
  rw [if_neg he] at h
  by_cases hc : truthy st.city = false
  · rw [if_pos hc] at h
    injection h with h0
    rw [← h0]
    refine ⟨fun v hv hsv => hsv, fun v hv hsv => hsv, ?_, fun v hv hsv => hsv,
      fun n hsn => hsn⟩
    intro v hv hsv
    rw [hsv, truthy_some_ne v hv] at hc
    exact Bool.noConfusion hc
  rw [if_neg hc] at h
  by_cases ha : truthy st.address = false
  · rw [if_pos ha] at h
    by_cases hdeep : (containsStr (lowerS (st.service.getD "")) "deep"
        || containsStr (lowerS u) "deep") = true
    · rw [if_pos hdeep] at h
      injection h with h0
      rw [← h0]
      refine ⟨fun v hv hsv => hsv, fun v hv hsv => hsv, fun v hv hsv => hsv, ?_,
        fun n hsn => hsn⟩
      intro v hv hsv
      rw [hsv, truthy_some_ne v hv] at ha
      exact Bool.noConfusion ha
    · rw [if_neg hdeep] at h
      injection h with h0
      rw [← h0]
      refine ⟨fun v hv hsv => hsv, fun v hv hsv => hsv, fun v hv hsv => hsv, ?_,
        fun n hsn => hsn⟩
      intro v hv hsv
      rw [hsv, truthy_some_ne v hv] at ha
      exact Bool.noConfusion ha
  rw [if_neg ha] at h
  by_cases hb : (st.bedrooms = none
      ∧ (containsStr (lowerS (st.service.getD "")) "deep"
          || (findBedroomDigit u.data).isSome) = true)
  · rw [if_pos hb] at h
    rcases hfd : findBedroomDigit u.data with _ | d
    · rw [hfd] at h
      rw [llmFallback_ok_eq env phone st u r h]
      exact ⟨fun v hv hsv => hsv, fun v hv hsv => hsv, fun v hv hsv => hsv,
        fun v hv hsv => hsv, fun n hsn => hsn⟩
    · rw [hfd] at h
      injection h with h0
      rw [← h0]
      refine ⟨fun v hv hsv => hsv, fun v hv hsv => hsv, fun v hv hsv => hsv,
        fun v hv hsv => hsv, ?_⟩
      intro n hsn
      rw [hsn] at hb
      exact Option.noConfusion hb.1
  · rw [if_neg hb] at h
    rw [llmFallback_ok_eq env phone st u r h]
    exact ⟨fun v hv hsv => hsv, fun v hv hsv => hsv, fun v hv hsv => hsv,
      fun v hv hsv => hsv, fun n hsn => hsn⟩

/-- The availability phase never touches collected fields. -/
theorem availabilityStep_write_once (env : Env) (phone : String) (st : Session)
    (u : String) (r : TurnResult) (h : availabilityStep env phone st u = Except.ok r) :
    (∀ v, v ≠ "" → st.name = some v → r.state.name = some v)
    ∧ (∀ v, v ≠ "" → st.email = some v → r.state.email = some v)
    ∧ (∀ v, v ≠ "" → st.city = some v → r.state.city = some v)
    ∧ (∀ v, v ≠ "" → st.address = some v → r.state.address = some v)
    ∧ (∀ n, st.bedrooms = some n → r.state.bedrooms = some n) := by
  unfold availabilityStep at h
  split at h
  · split_ifs at h
    all_goals first
      | exact Except.noConfusion h
      | (injection h with h0; rw [← h0];
          exact ⟨fun v _ hv => hv, fun v _ hv => hv, fun v _ hv => hv,
            fun v _ hv => hv, fun n hn => hn⟩)
  · injection h with h0
    rw [← h0]
    exact ⟨fun v _ hv => hv, fun v _ hv => hv, fun v _ hv => hv,
      fun v _ hv => hv, fun n hn => hn⟩

/-- C10: collected session fields are write-once across the turn
handler: once name, email, city or address holds a non-empty value, or
the bedroom count is set, no later turn overwrites it (every capture is
guarded by a field-absent check). -/
theorem c10_fields_write_once (env : Env) (phone : String) (st : Session)
    (u : String) (r : TurnResult) (h : gather env phone st u = Except.ok r) :
    (∀ v, v ≠ "" → st.name = some v → r.state.name = some v)
    ∧ (∀ v, v ≠ "" → st.email = some v → r.state.email = some v)
    ∧ (∀ v, v ≠ "" → st.city = some v → r.state.city = some v)
    ∧ (∀ v, v ≠ "" → st.address = some v → r.state.address = some v)
    ∧ (∀ n, st.bedrooms = some n → r.state.bedrooms = some n) := by
  unfold gather at h
  split_ifs at h
  all_goals first
    | (injection h with h0; rw [← h0];
        exact ⟨fun v _ hv => hv, fun v _ hv => hv, fun v _ hv => hv,
          fun v _ hv => hv, fun n hn => hn⟩)
    | (unfold bookStart at h; injection h with h0; rw [← h0];
        exact ⟨fun v _ hv => hv, fun v _ hv => hv, fun v _ hv => hv,
          fun v _ hv => hv, fun n hn => hn⟩)
    | exact collectingStep_write_once env phone st (strip u) r h
    | exact availabilityStep_write_once env phone st (strip u) r h
    | (rw [llmFallback_ok_eq env phone st (strip u) r h];
        exact ⟨fun v _ hv => hv, fun v _ hv => hv, fun v _ hv => hv,
          fun v _ hv => hv, fun n hn => hn⟩)

/-- Witness for C10 at the bedroom-step session: the stored name
survives the turn. -/
theorem c10_witness : rThree.state.name = some "John" :=
  (c10_fields_write_once envBase "p" stBed "three" rThree (by rfl)).1
    "John" (by decide) (by rfl)

/-- Replay of the slot-marking writes of an effect list onto an
availability table. -/
def applySlotEffects (es : List Effect) (tbl : List (String × String × Bool)) :
    List (String × String × Bool) :=
  es.foldl (fun t e => match e with
    | Effect.markSlot d s => markSlotTaken d s t
    | _ => t) tbl

/-- Session after the full funnel run of C1. -/
def sessionDone : Session :=
  ⟨some "done", some "John Smith", some "john@x.com", some "Toronto",
    some "12 Main Street", none, none, none⟩

/-- The single booking row produced by the funnel run of C1. -/
def bookingC1 : Booking :=
  ⟨some "John Smith", some "john@x.com", "p", some "Toronto", some "12 Main Street",
    none, none, none, some "yes", some "2026-10-13 PM"⟩

/-- Effects of the full funnel run of C1, in order. -/
def effsC1 : List Effect :=
  [Effect.logInteraction "p" "user_speech" "book" "",
   Effect.logInteraction "p" "user_speech" "John Smith" "",
   Effect.logInteraction "p" "user_speech" "john@x.com" "",
   Effect.logInteraction "p" "user_speech" "Toronto" "",
   Effect.logInteraction "p" "user_speech" "12 Main Street" "",
   Effect.logInteraction "p" "user_speech" "tomorrow pm" "",
   Effect.saveBooking bookingC1,
   Effect.markSlot "2026-10-13" "PM"]

/-- A collecting-phase turn never writes a booking. -/
theorem collectingStep_bookings_nil (env : Env) (phone : String) (st : Session)
    (u : String) (r : TurnResult) (h : collectingStep env phone st u = Except.ok r) :
    bookingsOf r.effects = [] := by
  unfold collectingStep at h
  split_ifs at h
  all_goals first
    | (injection h with h0; rw [← h0]; rfl)
    | (rw [llmFallback_ok_eq env phone st u r h]; rfl)
    | (split at h <;> first
        | (injection h with h0; rw [← h0]; rfl)
        | (rw [llmFallback_ok_eq env phone st u r h]; rfl))

/-- An availability-phase turn that wrote a booking parsed a day and a
slot, moved to `done`, and emitted exactly one booking write and one
slot write. -/
theorem availabilityStep_booking_char (env : Env) (phone : String) (st : Session)
    (u : String) (r : TurnResult) (h : availabilityStep env phone st u = Except.ok r)
    (hbk : bookingsOf r.effects ≠ []) :
    r.state.phase = some "done"
      ∧ ∃ day slot, parseDay env (lowerS u) = some day
          ∧ parseSlot (lowerS u) = some slot
          ∧ r.effects = [Effect.logInteraction phone "user_speech" u "",
              Effect.saveBooking (mkBooking phone st day slot), Effect.markSlot day slot]
          ∧ bookingsOf r.effects = [mkBooking phone st day slot]
          ∧ slotMarksOf r.effects = [(day, slot)] := by
  unfold availabilityStep at h
  split at h
  · rename_i day s hd hs
    split_ifs at h
    all_goals first
      | exact Except.noConfusion h
      | (injection h with h0; rw [← h0];
          exact ⟨rfl, day, s, hd, hs, rfl, rfl, rfl⟩)
  · injection h with h0
    rw [← h0] at hbk
    exact absurd rfl hbk

/-- C1: driving the funnel `book → name → email → city → address →
"tomorrow pm"` from a fresh session (with the knowledge store empty so
no lookup intercepts) yields exactly one booking whose bookingTime is
tomorrow's ISO date followed by ` PM`, and exactly one availability-slot
write marking that (day, PM) pair unavailable; and in general a booking
effect only ever arises from a session in the availability (slot) phase
whose utterance parsed both a day and a slot, the same turn moving the
session to `done` with exactly one slot write. -/
theorem c1_round_trip_single_booking :
    (runTurns envBase "p" sessionEmpty
        ["book", "John Smith", "john@x.com", "Toronto", "12 Main Street", "tomorrow pm"]
      = some (sessionDone, effsC1))
    ∧ bookingsOf effsC1 = [bookingC1]
    ∧ bookingC1.bookingTime = some (envBase.tomorrowISO ++ " PM")
    ∧ slotMarksOf effsC1 = [(envBase.tomorrowISO, "PM")]
    ∧ applySlotEffects effsC1 [] = [(envBase.tomorrowISO, "PM", false)]
    ∧ (∀ env phone st u r, gather env phone st u = Except.ok r →
        bookingsOf r.effects ≠ [] →
        st.phase = some "availability"
          ∧ r.state.phase = some "done"
          ∧ ∃ day slot, parseDay env (lowerS (strip u)) = some day
              ∧ parseSlot (lowerS (strip u)) = some slot
              ∧ r.effects = [Effect.logInteraction phone "user_speech" (strip u) "",
                  Effect.saveBooking (mkBooking phone st day slot), Effect.markSlot day slot]
              ∧ bookingsOf r.effects = [mkBooking phone st day slot]
              ∧ slotMarksOf r.effects = [(day, slot)]) := by
  refine ⟨by rfl, by rfl, by rfl, by rfl, by rfl, ?_⟩
  intro env phone st u r h hbk
  unfold gather at h
  split_ifs at h
  all_goals first
    | (injection h with h0; rw [← h0] at hbk; exact absurd rfl hbk)
    | (exact absurd (collectingStep_bookings_nil env phone st (strip u) r h) hbk)
    | (refine ⟨by assumption, availabilityStep_booking_char env phone st (strip u) r h hbk⟩)
    | (rw [llmFallback_ok_eq env phone st (strip u) r h] at hbk; exact absurd rfl hbk)

/-- Witness for C1's booking invariant at the concrete booking turn. -/
theorem c1_witness :
    stAvail.phase = some "availability"
      ∧ rBooked.state.phase = some "done"
      ∧ ∃ day slot, parseDay envBase (lowerS (strip "tomorrow pm")) = some day
          ∧ parseSlot (lowerS (strip "tomorrow pm")) = some slot
          ∧ rBooked.effects = [Effect.logInteraction "p" "user_speech" (strip "tomorrow pm") "",
              Effect.saveBooking (mkBooking "p" stAvail day slot), Effect.markSlot day slot]
          ∧ bookingsOf rBooked.effects = [mkBooking "p" stAvail day slot]
          ∧ slotMarksOf rBooked.effects = [(day, slot)] :=
  c1_round_trip_single_booking.2.2.2.2.2 envBase "p" stAvail "tomorrow pm" rBooked
    (by rfl) (by decide)
